import Mathlib

/-!
Shallow embedding of the `random_sampling` package (files
`random_sampling/boundary.py` and `random_sampling/generator.py`).

Conventions of the embedding:
* Python floats are modelled as exact rationals `ℚ`.
* A shapely `Point` is a pair `ℚ × ℚ`; a shapely `Polygon` is its exterior
  ring, a list of vertices.
* The external shapely predicates (`Polygon.contains`, `Polygon.bounds`,
  `Polygon.is_valid`, point distance) are modelled as follows:
  `contains` is strict-interior membership decided by an even-odd ray cast
  (shapely documents `contains` as excluding the boundary); `bounds` of a
  union of polygons is the componentwise bounding box of all vertices;
  `is_valid` has no executable model and is taken as an explicit function
  parameter `isValid`; the Euclidean-distance comparison
  `point.distance(q) < min_distance` is modelled by the equivalent (for a
  positive threshold) squared comparison `dist2 point q < min_distance ^ 2`.
* `numpy.random` is a global generator; its state is modelled by `RState`,
  a stream of unit draws together with a cursor, threaded explicitly.
  `np.random.seed s` replaces the state by `⟨seedFn s, 0⟩` where
  `seedFn : ℤ → ℕ → ℚ` (the seed-to-stream map of the generator algorithm)
  is an explicit parameter.  `np.random.uniform lo hi` consumes one draw
  `u` and returns `lo + u * (hi - lo)`.
* Python exceptions are modelled with `Except String`.
-/

namespace RandomSampling

/-- A shapely `Point`: an (x, y) coordinate pair. -/
abbrev Pt := ℚ × ℚ

/-- The exterior ring of a shapely `Polygon`: its list of vertices. -/
abbrev Ring := List Pt

/-- An attribute dictionary (string keys to string values), as an
association list. -/
abbrev Attrs := List (String × String)

/-- Squared Euclidean distance between two points.  `shapely`'s
`point.distance(q)` is the square root of this quantity. -/
def dist2 (p q : Pt) : ℚ :=
  (p.1 - q.1) ^ 2 + (p.2 - q.2) ^ 2

/-- The edge list of a ring: consecutive vertex pairs, closing back to the
first vertex. -/
def edges (r : Ring) : List (Pt × Pt) :=
  match r with
  | [] => []
  | v :: _ => r.zip (r.tail ++ [v])

/-- Whether `p` lies on the closed segment from `a` to `b`:
collinearity together with membership in the coordinate ranges. -/
def onSegment (a b p : Pt) : Bool :=
  decide ((b.1 - a.1) * (p.2 - a.2) = (b.2 - a.2) * (p.1 - a.1)) &&
  decide (min a.1 b.1 ≤ p.1) && decide (p.1 ≤ max a.1 b.1) &&
  decide (min a.2 b.2 ≤ p.2) && decide (p.2 ≤ max a.2 b.2)

/-- Whether `p` lies on the boundary (an edge or a vertex) of the ring. -/
def onBoundary (r : Ring) (p : Pt) : Bool :=
  (edges r).any fun e => onSegment e.1 e.2 p

/-- One step of the standard even-odd ray cast: whether the horizontal ray
from `p` to the right crosses the edge from `a` to `b`. -/
def crossesRay (p a b : Pt) : Bool :=
  (decide (p.2 < a.2) != decide (p.2 < b.2)) &&
  decide (p.1 < a.1 + (b.1 - a.1) * (p.2 - a.2) / (b.2 - a.2))

/-- Whether the even-odd ray cast classifies `p` as inside the ring. -/
def oddCrossings (r : Ring) (p : Pt) : Bool :=
  ((edges r).countP fun e => crossesRay p e.1 e.2) % 2 == 1

/-- Model of the external shapely `polygon.contains(point)` call for a
simple polygon: strict interior membership — true iff the point is not on
the boundary and the even-odd ray cast reports inside.  shapely documents
`contains` as excluding the boundary of the polygon. -/
def interiorContains (r : Ring) (p : Pt) : Bool :=
  !onBoundary r p && oddCrossings r p

/-- A bounding box `(minx, miny, maxx, maxy)`, shapely's `bounds` tuple. -/
structure Bounds where
  minx : ℚ
  miny : ℚ
  maxx : ℚ
  maxy : ℚ
deriving DecidableEq

/-- Componentwise bounding box of the vertex `v0` and the vertices `vs`. -/
def bboxOf (v0 : Pt) (vs : List Pt) : Bounds :=
  vs.foldl
    (fun b v => ⟨min b.minx v.1, min b.miny v.2, max b.maxx v.1, max b.maxy v.2⟩)
    ⟨v0.1, v0.2, v0.1, v0.2⟩

/-- `random_sampling.boundary.BoundaryHandler` after construction: the
validated polygon list and the parallel attribute list. -/
structure BoundaryHandler where
  polygons : List Ring
  polygon_attributes : List Attrs
deriving DecidableEq

/-- `BoundaryHandler.__init__`: the attribute list defaults to one empty
dict per polygon when absent or empty (`polygon_attributes or
[{}] * len(polygons)`), then `_validate_polygons` keeps, in order, each
polygon passing `is_valid` together with `polygon_attributes[i]` when the
index is in range (else an empty dict).  `validateFrom` is the loop
`for i, polygon in enumerate(self.polygons)`. -/
def validateFrom (isValid : Ring → Bool) (attrs0 : List Attrs) :
    List Ring → ℕ → List (Ring × Attrs)
  | [], _ => []
  | p :: ps, i =>
    if isValid p then (p, attrs0.getD i []) :: validateFrom isValid attrs0 ps (i + 1)
    else validateFrom isValid attrs0 ps (i + 1)

/-- `BoundaryHandler(polygons, polygon_attributes)`. -/
def mkBoundaryHandler (isValid : Ring → Bool) (polygons : List Ring)
    (polygon_attributes : Option (List Attrs)) : BoundaryHandler :=
  let attrs0 :=
    match polygon_attributes with
    | none => List.replicate polygons.length []
    | some l => if l.isEmpty then List.replicate polygons.length [] else l
  let kept := validateFrom isValid attrs0 polygons 0
  ⟨kept.map Prod.fst, kept.map Prod.snd⟩

/-- `BoundaryHandler.contains_point`: true iff the point is strictly inside
any member polygon (`False` for an empty handler). -/
def contains_point (h : BoundaryHandler) (p : Pt) : Bool :=
  h.polygons.any fun r => interiorContains r p

/-- `BoundaryHandler.get_bounds`: `None` when there are no polygons (or the
combined geometry is empty, i.e. there are no vertices at all); otherwise
the bounding box of the union of the polygons, which is the componentwise
bounding box of all vertices. -/
def get_bounds (h : BoundaryHandler) : Option Bounds :=
  match h.polygons.flatten with
  | [] => none
  | v :: vs => some (bboxOf v vs)

/-- Python `needle in haystack` on strings: `listPre` is prefix test on
character lists, `strIn` checks some suffix has the needle as a prefix. -/
def listPre : List Char → List Char → Bool
  | [], _ => true
  | _ :: _, [] => false
  | a :: as, b :: bs => a == b && listPre as bs

/-- Python substring membership `needle in haystack`. -/
def strIn (needle haystack : String) : Bool :=
  (List.range (haystack.toList.length + 1)).any fun k =>
    listPre needle.toList (haystack.toList.drop k)

/-- `BoundaryHandler.filter_by_attribute(field, value)`: keep, in order,
the (polygon, attributes) pairs whose value for `field` (defaulting to the
empty string) contains `value` case-insensitively, then rebuild a handler
through the constructor.  When the attribute list is empty the handler is
returned unchanged.  (In this model attribute values are always strings,
so Python's `isinstance(attr_value, str)` guard is always true.) -/
def filter_by_attribute (isValid : Ring → Bool) (h : BoundaryHandler)
    (field value : String) : BoundaryHandler :=
  if h.polygon_attributes.isEmpty then h
  else
    let kept := (h.polygons.zip h.polygon_attributes).filter fun pa =>
      let attr_value := (List.lookup field pa.2).getD ""
      strIn value.toLower attr_value.toLower
    mkBoundaryHandler isValid (kept.map Prod.fst) (some (kept.map Prod.snd))

/-- The state of the global `numpy.random` generator: a stream of unit
draws and a cursor into it. -/
structure RState where
  stream : ℕ → ℚ
  pos : ℕ

/-- `np.random.uniform(lo, hi)`: consume one unit draw `u` and return
`lo + u * (hi - lo)` (for `u ∈ [0, 1]` this lies in `[lo, hi]` when
`lo ≤ hi`). -/
def uniform (lo hi : ℚ) (st : RState) : ℚ × RState :=
  (lo + st.stream st.pos * (hi - lo), ⟨st.stream, st.pos + 1⟩)

/-- `random_sampling.generator.RandomPointGenerator` after `__init__`:
the boundary handler and the bounds computed from it. -/
structure Generator where
  handler : BoundaryHandler
  bounds : Bounds
deriving DecidableEq

/-- `RandomPointGenerator.__init__`: store the handler and its bounds;
raise `ValueError` when `get_bounds()` gives nothing. -/
def mkGenerator (h : BoundaryHandler) : Except String Generator :=
  match get_bounds h with
  | none => .error "No valid boundary available for point generation"
  | some b => .ok ⟨h, b⟩

/-- The two `np.random.uniform` draws of one loop iteration of
`generate_points_with_minimum_distance`:
`x = uniform(bounds[0], bounds[2])`, `y = uniform(bounds[1], bounds[3])`. -/
def drawPoint (g : Generator) (st : RState) : Pt × RState :=
  let xr := uniform g.bounds.minx g.bounds.maxx st
  let yr := uniform g.bounds.miny g.bounds.maxy xr.2
  ((xr.1, yr.1), yr.2)

/-- The `while len(points) < n_points and attempts < max_attempts` loop of
`generate_points_with_minimum_distance`.  Each iteration draws a candidate,
rejects it if it is not strictly inside the boundary, rejects it if it is
closer than `min_distance` to an already accepted point (squared-distance
comparison, equivalent for the positive `min_distance` in force on this
path), otherwise appends it; `attempts` increases by exactly one on every
path.  `fuel` makes the loop structurally recursive; it is called with
`fuel = max_attempts - attempts`, so the `fuel = 0` case coincides with the
`attempts < max_attempts` exit of the source loop. -/
def sampleLoop (g : Generator) (n_points : ℕ) (min_distance : ℚ)
    (max_attempts : ℕ) :
    ℕ → List Pt → ℕ → RState → List Pt × ℕ × RState
  | 0, points, attempts, st => (points, attempts, st)
  | fuel + 1, points, attempts, st =>
    if points.length < n_points ∧ attempts < max_attempts then
      let pd := drawPoint g st
      if contains_point g.handler pd.1 = false then
        sampleLoop g n_points min_distance max_attempts fuel points (attempts + 1) pd.2
      else if points.any (fun ep => decide (dist2 pd.1 ep < min_distance ^ 2)) then
        sampleLoop g n_points min_distance max_attempts fuel points (attempts + 1) pd.2
      else
        sampleLoop g n_points min_distance max_attempts fuel
          (points ++ [pd.1]) (attempts + 1) pd.2
    else (points, attempts, st)

/-- `np.random.seed(seed)` when a seed is given (replace the global state
by the stream determined by the seed, cursor at 0), identity otherwise. -/
def seedState (seedFn : ℤ → ℕ → ℚ) (seed : Option ℤ) (st : RState) : RState :=
  match seed with
  | some s => ⟨seedFn s, 0⟩
  | none => st

/-- `RandomPointGenerator.generate_points_with_minimum_distance`
(`generator.py`, lines 30–87).  Seeds the global generator when a seed is
given; returns `[]` for `n_points <= 0`; for `min_distance <= 0` the source
calls `self.generate_points(...)`, a method that does not exist anywhere in
the repository, so the call raises `AttributeError`; otherwise runs the
rejection-sampling loop with `max_attempts = n_points * 1000` and returns
the accepted points.  The result pairs the Python return value (or the
exception) with the final global generator state. -/
def generate_points_with_minimum_distance (seedFn : ℤ → ℕ → ℚ) (g : Generator)
    (n_points : ℤ) (min_distance : ℚ) (seed : Option ℤ) (st : RState) :
    Except String (List Pt) × RState :=
  let st1 : RState := seedState seedFn seed st
  if n_points ≤ 0 then (.ok [], st1)
  else if min_distance ≤ 0 then
    (.error "AttributeError: RandomPointGenerator object has no attribute generate_points", st1)
  else
    let r := sampleLoop g n_points.toNat min_distance (n_points.toNat * 1000)
      (n_points.toNat * 1000) [] 0 st1
    (.ok r.1, r.2.2)

/-- The `for i, polygon in enumerate(self.boundary_handler.polygons)` loop
of `RandomPointGenerator.generate_points_per_polygon`: for each polygon
build a single-polygon handler and generator (a `ValueError` is caught and
the polygon skipped), derive `polygon_seed = seed + i` when a base seed is
given, call the minimum-distance sampler (an exception there is caught and
the polygon skipped), and extend the accumulated point list. -/
def perPolyLoop (isValid : Ring → Bool) (seedFn : ℤ → ℕ → ℚ)
    (n_points_per_polygon : ℤ) (min_distance : ℚ) (seed : Option ℤ) :
    List Ring → ℕ → List Pt → RState → List Pt × RState
  | [], _, all_points, st => (all_points, st)
  | polygon :: rest, i, all_points, st =>
    match mkGenerator (mkBoundaryHandler isValid [polygon] none) with
    | .error _ =>
      perPolyLoop isValid seedFn n_points_per_polygon min_distance seed
        rest (i + 1) all_points st
    | .ok single_generator =>
      let polygon_seed := seed.map fun s => s + (i : ℤ)
      let r := generate_points_with_minimum_distance seedFn single_generator
        n_points_per_polygon min_distance polygon_seed st
      match r.1 with
      | .error _ =>
        perPolyLoop isValid seedFn n_points_per_polygon min_distance seed
          rest (i + 1) all_points r.2
      | .ok polygon_points =>
        perPolyLoop isValid seedFn n_points_per_polygon min_distance seed
          rest (i + 1) (all_points ++ polygon_points) r.2

/-- `RandomPointGenerator.generate_points_per_polygon` (`generator.py`,
lines 91–133): returns `[]` when the handler has no polygons, otherwise
runs the per-polygon loop from index 0 with an empty accumulator.  The
minimum distance is the `min_distance` keyword argument, defaulting to
`0.001` (`kwargs.get("min_distance", 0.001)`). -/
def generate_points_per_polygon (isValid : Ring → Bool) (seedFn : ℤ → ℕ → ℚ)
    (g : Generator) (n_points_per_polygon : ℤ) (seed : Option ℤ)
    (min_distance_kw : Option ℚ) (st : RState) : List Pt × RState :=
  if g.handler.polygons.isEmpty then ([], st)
  else
    perPolyLoop isValid seedFn n_points_per_polygon
      (min_distance_kw.getD (1 / 1000)) seed g.handler.polygons 0 [] st

/-- `random_sampling.generator.generate_sampling_points` (`generator.py`,
lines 135–154): construct a `RandomPointGenerator` for the whole handler
(propagating the constructor's `ValueError`), pop the `seed` keyword, and
delegate to `generate_points_per_polygon`. -/
def generate_sampling_points (isValid : Ring → Bool) (seedFn : ℤ → ℕ → ℚ)
    (boundary_handler : BoundaryHandler) (n_points : ℤ)
    (min_distance_kw : Option ℚ) (seed_kw : Option ℤ) (st : RState) :
    Except String (List Pt × RState) :=
  match mkGenerator boundary_handler with
  | .error e => .error e
  | .ok generator =>
    .ok (generate_points_per_polygon isValid seedFn generator n_points seed_kw
      min_distance_kw st)

/-- The pairwise-separation relation maintained by the sampler: squared
distance at least the squared threshold. -/
def farApart (d : ℚ) (p q : Pt) : Prop := d ^ 2 ≤ dist2 p q

/-- One body of the per-polygon loop, as an independent function: build the
single-polygon handler and generator, run the minimum-distance sampler with
the given seed, return the points (or `[]` when an exception was caught and
the polygon skipped) and the resulting generator state. -/
def polygonSample (isValid : Ring → Bool) (seedFn : ℤ → ℕ → ℚ) (n : ℤ)
    (d : ℚ) (sd : Option ℤ) (poly : Ring) (st : RState) : List Pt × RState :=
  match mkGenerator (mkBoundaryHandler isValid [poly] none) with
  | .error _ => ([], st)
  | .ok g =>
    let r := generate_points_with_minimum_distance seedFn g n d sd st
    ((match r.1 with | .error _ => [] | .ok pts => pts), r.2)

/-- Sampling a list of polygons one by one from index `i`, each polygon
with its own single-polygon generator and the seed `sdOf i`, threading the
generator state and concatenating the results in list order. -/
def samplePolygonsFrom (isValid : Ring → Bool) (seedFn : ℤ → ℕ → ℚ) (n : ℤ)
    (d : ℚ) (sdOf : ℕ → Option ℤ) :
    List Ring → ℕ → RState → List Pt × RState
  | [], _, st => ([], st)
  | poly :: rest, i, st =>
    let r := polygonSample isValid seedFn n d (sdOf i) poly st
    let rr := samplePolygonsFrom isValid seedFn n d sdOf rest (i + 1) r.2
    (r.1 ++ rr.1, rr.2)

/-! ### Witness fixtures: concrete inputs used to instantiate theorems -/

/-- The 10×10 square polygon of the spec's concrete scenario. -/
def sqRing : Ring := [(0, 0), (10, 0), (10, 10), (0, 10)]

/-- A validity oracle accepting every ring. -/
def allValid : Ring → Bool := fun _ => true

/-- A seed-to-stream map whose streams alternate two low draws with two
high draws, so successive candidate points are far apart. -/
def altSeedFn : ℤ → ℕ → ℚ := fun _ k => if k % 4 < 2 then 1 / 4 else 3 / 4

/-- A generator state over the same alternating stream. -/
def altState : RState := ⟨fun k => if k % 4 < 2 then 1 / 4 else 3 / 4, 0⟩

/-- The generator the source builds for the single square polygon. -/
def sqGen : Generator := ⟨⟨[sqRing], [[]]⟩, ⟨0, 0, 10, 10⟩⟩

/-- A seed-to-stream map with every draw 1/2: all candidates hit the
centre of the bounding box. -/
def constSeedFn : ℤ → ℕ → ℚ := fun _ _ => 1 / 2

/-- A generator state over the constant-1/2 stream. -/
def constState : RState := ⟨fun _ => 1 / 2, 0⟩

/-- The generator the source builds for a handler holding the same square
twice (two overlapping member polygons). -/
def twoSqGen : Generator := ⟨⟨[sqRing, sqRing], [[], []]⟩, ⟨0, 0, 10, 10⟩⟩

/-- A one-polygon handler carrying a `name` attribute. -/
def namedHandler : BoundaryHandler := ⟨[sqRing], [[("name", "Field A")]]⟩

/-! ### Supporting lemmas -/

theorem dist2_comm (p q : Pt) : dist2 p q = dist2 q p := by
  unfold dist2; ring

theorem drawPoint_snd_pos (g : Generator) (st : RState) :
    (drawPoint g st).2.pos = st.pos + 2 := by
  simp only [drawPoint, uniform]

theorem drawPoint_snd_stream (g : Generator) (st : RState) :
    (drawPoint g st).2.stream = st.stream := rfl

/-- Grand invariant of the rejection-sampling loop: the accepted list never
exceeds `n` points, every accepted point passes the containment test, the
accepted points are pairwise at squared distance at least `d ^ 2`, the
attempt counter grows monotonically up to `max_attempts`, the loop stops
short of `n` points only with the attempt budget exhausted, and each
attempt consumes exactly two unit draws (one x, one y). -/
theorem sampleLoop_invariant (g : Generator) (n : ℕ) (d : ℚ) (maxA : ℕ) :
    ∀ (fuel att : ℕ) (pts : List Pt) (st : RState),
      maxA - att ≤ fuel →
      att ≤ maxA →
      pts.length ≤ n →
      (∀ p ∈ pts, contains_point g.handler p = true) →
      pts.Pairwise (farApart d) →
      (sampleLoop g n d maxA fuel pts att st).1.length ≤ n ∧
      (∀ p ∈ (sampleLoop g n d maxA fuel pts att st).1,
        contains_point g.handler p = true) ∧
      (sampleLoop g n d maxA fuel pts att st).1.Pairwise (farApart d) ∧
      att ≤ (sampleLoop g n d maxA fuel pts att st).2.1 ∧
      (sampleLoop g n d maxA fuel pts att st).2.1 ≤ maxA ∧
      ((sampleLoop g n d maxA fuel pts att st).1.length < n →
        (sampleLoop g n d maxA fuel pts att st).2.1 = maxA) ∧
      (sampleLoop g n d maxA fuel pts att st).2.2.pos =
        st.pos + 2 * ((sampleLoop g n d maxA fuel pts att st).2.1 - att) ∧
      (sampleLoop g n d maxA fuel pts att st).2.2.stream = st.stream := by
  intro fuel
  induction fuel with
  | zero =>
    intro att pts st hfuel hatt hlen hin hpw
    simp only [sampleLoop]
    exact ⟨hlen, hin, hpw, le_refl _, hatt, fun _ => by omega, by omega, trivial⟩
  | succ fuel ih =>
    intro att pts st hfuel hatt hlen hin hpw
    by_cases hc : pts.length < n ∧ att < maxA
    · have hrec :
          ∀ (pts' : List Pt), pts'.length ≤ n →
            (∀ p ∈ pts', contains_point g.handler p = true) →
            pts'.Pairwise (farApart d) →
            (sampleLoop g n d maxA fuel pts' (att + 1) (drawPoint g st).2).1.length ≤ n ∧
            (∀ p ∈ (sampleLoop g n d maxA fuel pts' (att + 1) (drawPoint g st).2).1,
              contains_point g.handler p = true) ∧
            (sampleLoop g n d maxA fuel pts' (att + 1) (drawPoint g st).2).1.Pairwise (farApart d) ∧
            att ≤ (sampleLoop g n d maxA fuel pts' (att + 1) (drawPoint g st).2).2.1 ∧
            (sampleLoop g n d maxA fuel pts' (att + 1) (drawPoint g st).2).2.1 ≤ maxA ∧
            ((sampleLoop g n d maxA fuel pts' (att + 1) (drawPoint g st).2).1.length < n →
              (sampleLoop g n d maxA fuel pts' (att + 1) (drawPoint g st).2).2.1 = maxA) ∧
            (sampleLoop g n d maxA fuel pts' (att + 1) (drawPoint g st).2).2.2.pos =
              st.pos + 2 * ((sampleLoop g n d maxA fuel pts' (att + 1) (drawPoint g st).2).2.1 - att) ∧
            (sampleLoop g n d maxA fuel pts' (att + 1) (drawPoint g st).2).2.2.stream = st.stream := by
        intro pts' hlen' hin' hpw'
        have h1 := ih (att + 1) pts' (drawPoint g st).2 (by omega) (by omega) hlen' hin' hpw'
        obtain ⟨a1, a2, a3, a4, a5, a6, a7, a8⟩ := h1
        refine ⟨a1, a2, a3, by omega, a5, a6, ?_, ?_⟩
        · rw [a7, drawPoint_snd_pos]; omega
        · rw [a8, drawPoint_snd_stream]
      simp only [sampleLoop, if_pos hc]
      by_cases hcp : contains_point g.handler (drawPoint g st).1 = false
      · rw [if_pos hcp]
        exact hrec pts hlen hin hpw
      · rw [if_neg hcp]
        by_cases hany :
            (pts.any fun ep => decide (dist2 (drawPoint g st).1 ep < d ^ 2)) = true
        · rw [if_pos hany]
          exact hrec pts hlen hin hpw
        · rw [if_neg hany]
          have hcp' : contains_point g.handler (drawPoint g st).1 = true := by
            revert hcp; cases contains_point g.handler (drawPoint g st).1 <;> simp
          have hfar : ∀ ep ∈ pts, farApart d ep (drawPoint g st).1 := by
            intro ep hep
            have := (List.any_eq_true (l := pts)).not.mp hany
            push_neg at this
            have h2 := this ep hep
            have h3 : ¬ (dist2 (drawPoint g st).1 ep < d ^ 2) := by simpa using h2
            unfold farApart
            rw [dist2_comm]
            exact le_of_not_lt h3
          refine hrec (pts ++ [(drawPoint g st).1]) ?_ ?_ ?_
          · rw [List.length_append]; simp; omega
          · intro p hp
            rcases List.mem_append.mp hp with h | h
            · exact hin p h
            · rw [List.mem_singleton.mp h]; exact hcp'
          · rw [List.pairwise_append]
            refine ⟨hpw, List.pairwise_singleton _ _, ?_⟩
            intro a ha b hb
            rw [List.mem_singleton.mp hb]
            exact hfar a ha
    · simp only [sampleLoop, if_neg hc]
      exact ⟨hlen, hin, hpw, le_refl _, hatt, fun h => by omega, by omega, trivial⟩

theorem farApart_symm (d : ℚ) : Symmetric (farApart d) := by
  intro p q h
  unfold farApart at h ⊢
  rwa [dist2_comm]

/-- The constructor call `BoundaryHandler([polygon])` keeps the polygon
(paired with one empty attribute dict) iff it is valid. -/
theorem mkBoundaryHandler_single (isValid : Ring → Bool) (ring : Ring) :
    mkBoundaryHandler isValid [ring] none =
      if isValid ring then ⟨[ring], [[]]⟩ else ⟨[], []⟩ := by
  cases hv : isValid ring <;>
    simp [mkBoundaryHandler, validateFrom, hv, List.replicate]

/-- Building a generator from a single-polygon handler succeeds exactly
when the polygon is valid and has a vertex; the resulting handler stores
just that polygon (with one empty attribute dict). -/
theorem mkGenerator_single (isValid : Ring → Bool) (ring : Ring) (g : Generator)
    (hg : mkGenerator (mkBoundaryHandler isValid [ring] none) = .ok g) :
    g.handler = ⟨[ring], [[]]⟩ ∧ isValid ring = true ∧ ring ≠ [] := by
  rw [mkBoundaryHandler_single] at hg
  cases hv : isValid ring with
  | false =>
    rw [if_neg (by simp [hv])] at hg
    simp [mkGenerator, get_bounds] at hg
  | true =>
    rw [if_pos (by simp [hv])] at hg
    cases hr : ring with
    | nil =>
      subst hr
      simp [mkGenerator, get_bounds] at hg
    | cons v vs =>
      subst hr
      have hmk : mkGenerator ⟨[v :: vs], [[]]⟩ =
          .ok ⟨⟨[v :: vs], [[]]⟩, bboxOf v (vs ++ [])⟩ := rfl
      rw [hmk] at hg
      injection hg with hg
      subst hg
      exact ⟨rfl, rfl, by simp⟩

theorem contains_point_single (ring : Ring) (p : Pt) :
    contains_point ⟨[ring], [[]]⟩ p = interiorContains ring p := by
  simp [contains_point]

/-- C1 (helper form): a successful run of the minimum-distance sampler on a
single-polygon generator returns at most `n` points, all strictly inside
the polygon and pairwise at least `minDist` apart. -/
theorem generate_min_distance_correct
    (isValid : Ring → Bool) (seedFn : ℤ → ℕ → ℚ) (ring : Ring) (g : Generator)
    (hg : mkGenerator (mkBoundaryHandler isValid [ring] none) = .ok g)
    (n : ℤ) (minDist : ℚ) (hd : 0 < minDist) (seed : Option ℤ) (st : RState)
    (pts : List Pt)
    (hrun : (generate_points_with_minimum_distance seedFn g n minDist seed st).1 = .ok pts) :
    pts.length ≤ n.toNat ∧
    (∀ p ∈ pts, interiorContains ring p = true) ∧
    (∀ p ∈ pts, ∀ q ∈ pts, p ≠ q → minDist ^ 2 ≤ dist2 p q) := by
  obtain ⟨hhandler, _, _⟩ := mkGenerator_single isValid ring g hg
  by_cases hn : n ≤ 0
  · simp only [generate_points_with_minimum_distance, if_pos hn, Except.ok.injEq] at hrun
    subst hrun
    simp
  · have hd' : ¬ (minDist ≤ 0) := not_le.mpr hd
    simp only [generate_points_with_minimum_distance, if_neg hn, if_neg hd',
      Except.ok.injEq] at hrun
    have hinv := sampleLoop_invariant g n.toNat minDist (n.toNat * 1000)
      (n.toNat * 1000) 0 [] (seedState seedFn seed st)
      (by omega) (by omega) (by simp) (by simp) List.Pairwise.nil
    obtain ⟨a1, a2, a3, _⟩ := hinv
    rw [hrun] at a1 a2 a3
    refine ⟨a1, ?_, ?_⟩
    · intro p hp
      have := a2 p hp
      rwa [hhandler, contains_point_single] at this
    · intro p hp q hq hne
      exact (a3.forall (farApart_symm minDist)) hp hq hne

/-- A seeded sampler call ignores the incoming generator state: seeding
replaces the state before anything else. -/
theorem gpwmd_seeded_state (seedFn : ℤ → ℕ → ℚ) (g : Generator) (n : ℤ)
    (d : ℚ) (s : ℤ) (st st' : RState) :
    generate_points_with_minimum_distance seedFn g n d (some s) st =
      generate_points_with_minimum_distance seedFn g n d (some s) st' := rfl

/-- The per-polygon loop equals accumulator-plus-`samplePolygonsFrom`,
with the seed at list position `j` being `seed + j` (when seeded). -/
theorem perPolyLoop_eq (isValid : Ring → Bool) (seedFn : ℤ → ℕ → ℚ) (n : ℤ)
    (d : ℚ) (seed : Option ℤ) :
    ∀ (polys : List Ring) (i : ℕ) (acc : List Pt) (st : RState),
      perPolyLoop isValid seedFn n d seed polys i acc st =
        (acc ++ (samplePolygonsFrom isValid seedFn n d
            (fun j => seed.map fun s => s + (j : ℤ)) polys i st).1,
         (samplePolygonsFrom isValid seedFn n d
            (fun j => seed.map fun s => s + (j : ℤ)) polys i st).2) := by
  intro polys
  induction polys with
  | nil => intro i acc st; simp [perPolyLoop, samplePolygonsFrom]
  | cons poly rest ih =>
    intro i acc st
    cases hmk : mkGenerator (mkBoundaryHandler isValid [poly] none) with
    | error e =>
      simp only [perPolyLoop, samplePolygonsFrom, polygonSample, hmk]
      rw [ih]
      simp
    | ok g =>
      simp only [perPolyLoop, samplePolygonsFrom, polygonSample, hmk]
      cases hr : (generate_points_with_minimum_distance seedFn g n d
          (seed.map fun s => s + (i : ℤ)) st).1 with
      | error e =>
        simp only [hr]
        rw [ih]
        simp
      | ok pts =>
        simp only [hr]
        rw [ih]
        simp

/-- When every per-polygon seed is present, the output points of
`samplePolygonsFrom` do not depend on the incoming generator state. -/
theorem samplePolygonsFrom_seeded (isValid : Ring → Bool)
    (seedFn : ℤ → ℕ → ℚ) (n : ℤ) (d : ℚ) (sdOf : ℕ → Option ℤ)
    (hsd : ∀ i, (sdOf i).isSome = true) :
    ∀ (polys : List Ring) (i : ℕ) (st st' : RState),
      (samplePolygonsFrom isValid seedFn n d sdOf polys i st).1 =
        (samplePolygonsFrom isValid seedFn n d sdOf polys i st').1 := by
  intro polys
  induction polys with
  | nil => intro i st st'; rfl
  | cons poly rest ih =>
    intro i st st'
    obtain ⟨s, hs⟩ := Option.isSome_iff_exists.mp (hsd i)
    cases hmk : mkGenerator (mkBoundaryHandler isValid [poly] none) with
    | error e =>
      simp only [samplePolygonsFrom, polygonSample, hs, hmk]
      rw [ih (i + 1) st st']
    | ok g =>
      simp only [samplePolygonsFrom, polygonSample, hs, hmk]
      rw [gpwmd_seeded_state seedFn g n d s st st']

/-! ### Claim theorems -/

/-- C1: For every polygon with valid bounds (the single-polygon generator
constructs successfully), every `n`, every `minDistance > 0`, and every
seed, the list returned by `generate_points_with_minimum_distance` has
length at most `n`, every returned point satisfies the boundary
containment test for that polygon, and every pair of distinct returned
points is at Euclidean distance at least `minDistance` (equality
accepted): in exact rational arithmetic `minDist ^ 2 ≤ dist2 p q`, the
squared form of `distance(p, q) ≥ minDist` for a positive threshold. -/
theorem C1_sampler_correct
    (isValid : Ring → Bool) (seedFn : ℤ → ℕ → ℚ) (ring : Ring) (g : Generator)
    (hg : mkGenerator (mkBoundaryHandler isValid [ring] none) = .ok g)
    (n : ℤ) (minDist : ℚ) (hd : 0 < minDist) (seed : Option ℤ) (st : RState)
    (pts : List Pt)
    (hrun : (generate_points_with_minimum_distance seedFn g n minDist seed st).1 = .ok pts) :
    pts.length ≤ n.toNat ∧
    (∀ p ∈ pts, interiorContains ring p = true) ∧
    (∀ p ∈ pts, ∀ q ∈ pts, p ≠ q → minDist ^ 2 ≤ dist2 p q) :=
  generate_min_distance_correct isValid seedFn ring g hg n minDist hd seed st pts hrun

/-- Witness for C1: the 10×10 square, `n = 2`, `minDistance = 1`,
`seed = 42`, over the alternating stream: the run returns the two points
`(5/2, 5/2)` and `(15/2, 15/2)` and the guarantees hold for them. -/
theorem C1_witness :
    mkGenerator (mkBoundaryHandler allValid [sqRing] none) = .ok sqGen ∧
    0 < (1 : ℚ) ∧
    (generate_points_with_minimum_distance altSeedFn sqGen 2 1 (some 42) altState).1 =
      .ok ([(5/2, 5/2), (15/2, 15/2)] : List Pt) ∧
    (([(5/2, 5/2), (15/2, 15/2)] : List Pt).length ≤ (2 : ℤ).toNat ∧
     (∀ p ∈ ([(5/2, 5/2), (15/2, 15/2)] : List Pt), interiorContains sqRing p = true) ∧
     (∀ p ∈ ([(5/2, 5/2), (15/2, 15/2)] : List Pt),
        ∀ q ∈ ([(5/2, 5/2), (15/2, 15/2)] : List Pt),
          p ≠ q → (1 : ℚ) ^ 2 ≤ dist2 p q)) := by
  have hmk : mkGenerator (mkBoundaryHandler allValid [sqRing] none) = .ok sqGen := by
    with_unfolding_all rfl
  have hrun : (generate_points_with_minimum_distance altSeedFn sqGen 2 1
      (some 42) altState).1 = .ok ([(5/2, 5/2), (15/2, 15/2)] : List Pt) := by
    with_unfolding_all rfl
  exact ⟨hmk, by norm_num, hrun,
    C1_sampler_correct allValid altSeedFn sqRing sqGen hmk 2 1 (by norm_num)
      (some 42) altState _ hrun⟩

/-- C2: For every `n > 0` and `minDistance > 0` the sampling loop stops
within the attempt budget: the final attempt counter is at most
`n * 1000`; the loop exits with either `n` accepted points or the counter
exactly at `n * 1000`; the counter is incremented exactly once per
iteration — the final stream cursor has advanced by exactly two unit draws
(one x, one y) per counted attempt; and
`generate_points_with_minimum_distance` returns exactly the loop's
accepted points. -/
theorem C2_attempt_budget (seedFn : ℤ → ℕ → ℚ) (g : Generator) (n : ℤ)
    (hn : 0 < n) (d : ℚ) (hd : 0 < d) (seed : Option ℤ) (st : RState) :
    (sampleLoop g n.toNat d (n.toNat * 1000) (n.toNat * 1000) [] 0
        (seedState seedFn seed st)).2.1 ≤ n.toNat * 1000 ∧
    ((sampleLoop g n.toNat d (n.toNat * 1000) (n.toNat * 1000) [] 0
        (seedState seedFn seed st)).1.length = n.toNat ∨
      (sampleLoop g n.toNat d (n.toNat * 1000) (n.toNat * 1000) [] 0
        (seedState seedFn seed st)).2.1 = n.toNat * 1000) ∧
    (sampleLoop g n.toNat d (n.toNat * 1000) (n.toNat * 1000) [] 0
        (seedState seedFn seed st)).2.2.pos =
      (seedState seedFn seed st).pos +
        2 * (sampleLoop g n.toNat d (n.toNat * 1000) (n.toNat * 1000) [] 0
          (seedState seedFn seed st)).2.1 ∧
    generate_points_with_minimum_distance seedFn g n d seed st =
      (.ok (sampleLoop g n.toNat d (n.toNat * 1000) (n.toNat * 1000) [] 0
          (seedState seedFn seed st)).1,
       (sampleLoop g n.toNat d (n.toNat * 1000) (n.toNat * 1000) [] 0
          (seedState seedFn seed st)).2.2) := by
  have hinv := sampleLoop_invariant g n.toNat d (n.toNat * 1000)
    (n.toNat * 1000) 0 [] (seedState seedFn seed st)
    (by omega) (by omega) (by simp) (by simp) List.Pairwise.nil
  obtain ⟨a1, _, _, _, a5, a6, a7, _⟩ := hinv
  refine ⟨a5, ?_, ?_, ?_⟩
  · rcases lt_or_eq_of_le a1 with h | h
    · exact Or.inr (a6 h)
    · exact Or.inl h
  · rw [a7]; omega
  · have hn' : ¬ (n ≤ 0) := not_le.mpr hn
    have hd' : ¬ (d ≤ 0) := not_le.mpr hd
    simp [generate_points_with_minimum_distance, if_neg hn', if_neg hd']

/-- Witness for C2 at `n = 2`, `minDistance = 1`, unseeded, over the
constant stream and the square generator. -/
theorem C2_witness :
    (0 : ℤ) < 2 ∧ (0 : ℚ) < 1 ∧
    ((sampleLoop sqGen (2 : ℤ).toNat 1 ((2 : ℤ).toNat * 1000) ((2 : ℤ).toNat * 1000) [] 0
        (seedState constSeedFn none constState)).2.1 ≤ (2 : ℤ).toNat * 1000 ∧
     ((sampleLoop sqGen (2 : ℤ).toNat 1 ((2 : ℤ).toNat * 1000) ((2 : ℤ).toNat * 1000) [] 0
        (seedState constSeedFn none constState)).1.length = (2 : ℤ).toNat ∨
      (sampleLoop sqGen (2 : ℤ).toNat 1 ((2 : ℤ).toNat * 1000) ((2 : ℤ).toNat * 1000) [] 0
        (seedState constSeedFn none constState)).2.1 = (2 : ℤ).toNat * 1000) ∧
     (sampleLoop sqGen (2 : ℤ).toNat 1 ((2 : ℤ).toNat * 1000) ((2 : ℤ).toNat * 1000) [] 0
        (seedState constSeedFn none constState)).2.2.pos =
      (seedState constSeedFn none constState).pos +
        2 * (sampleLoop sqGen (2 : ℤ).toNat 1 ((2 : ℤ).toNat * 1000) ((2 : ℤ).toNat * 1000) [] 0
          (seedState constSeedFn none constState)).2.1 ∧
     generate_points_with_minimum_distance constSeedFn sqGen 2 1 none constState =
      (.ok (sampleLoop sqGen (2 : ℤ).toNat 1 ((2 : ℤ).toNat * 1000) ((2 : ℤ).toNat * 1000) [] 0
          (seedState constSeedFn none constState)).1,
       (sampleLoop sqGen (2 : ℤ).toNat 1 ((2 : ℤ).toNat * 1000) ((2 : ℤ).toNat * 1000) [] 0
          (seedState constSeedFn none constState)).2.2)) :=
  ⟨by norm_num, by norm_num,
    C2_attempt_budget constSeedFn sqGen 2 (by norm_num) 1 (by norm_num) none constState⟩

/-- C3: Determinism under a fixed base seed.  In this embedding the only
mutable input of a Python run is the hidden global RNG state, so two calls
with identical arguments are modelled as two calls from arbitrary
incoming states: with the same boundary handler, count, `min_distance`
keyword, and the same (non-`None`) base seed, the output point sequences
are identical element for element. -/
theorem C3_determinism (isValid : Ring → Bool) (seedFn : ℤ → ℕ → ℚ)
    (g : Generator) (n : ℤ) (mdk : Option ℚ) (s : ℤ) (st st' : RState) :
    (generate_points_per_polygon isValid seedFn g n (some s) mdk st).1 =
      (generate_points_per_polygon isValid seedFn g n (some s) mdk st').1 := by
  cases hpoly : g.handler.polygons with
  | nil => simp [generate_points_per_polygon, hpoly]
  | cons p ps =>
    simp only [generate_points_per_polygon, hpoly, List.isEmpty_cons]
    rw [if_neg (by simp), if_neg (by simp)]
    rw [perPolyLoop_eq, perPolyLoop_eq]
    simp only [List.nil_append]
    exact samplePolygonsFrom_seeded isValid seedFn n (mdk.getD (1 / 1000))
      (fun j => (some s).map fun t => t + (j : ℤ)) (fun i => rfl) (p :: ps) 0 st st'

/-- C6: The per-polygon generator is exactly `samplePolygonsFrom` with the
seed for the polygon at 0-based index `i` being `baseSeed + i` when a base
seed is provided (`Option.map (· + i)`), and `None` (unseeded) when not. -/
theorem C6_seed_derivation (isValid : Ring → Bool) (seedFn : ℤ → ℕ → ℚ)
    (g : Generator) (n : ℤ) (seed : Option ℤ) (mdk : Option ℚ) (st : RState) :
    generate_points_per_polygon isValid seedFn g n seed mdk st =
      samplePolygonsFrom isValid seedFn n (mdk.getD (1 / 1000))
        (fun i => seed.map fun s => s + (i : ℤ)) g.handler.polygons 0 st := by
  cases hpoly : g.handler.polygons with
  | nil => simp [generate_points_per_polygon, hpoly, samplePolygonsFrom]
  | cons p ps =>
    simp only [generate_points_per_polygon, hpoly, List.isEmpty_cons]
    rw [if_neg (by simp)]
    rw [perPolyLoop_eq]
    simp

/-- The bounds stored by a successfully constructed single-polygon
generator are the bounding box of that polygon's own vertices. -/
theorem mkGenerator_single_bounds (isValid : Ring → Bool) (v : Pt) (vs : List Pt)
    (g : Generator)
    (hg : mkGenerator (mkBoundaryHandler isValid [v :: vs] none) = .ok g) :
    g.bounds = bboxOf v vs := by
  obtain ⟨_, hv, _⟩ := mkGenerator_single isValid (v :: vs) g hg
  rw [mkBoundaryHandler_single, if_pos (by simp [hv])] at hg
  have hmk : mkGenerator ⟨[v :: vs], [[]]⟩ =
      .ok ⟨⟨[v :: vs], [[]]⟩, bboxOf v (vs ++ [])⟩ := rfl
  rw [hmk] at hg
  injection hg with hg
  subst hg
  simp

/-- C7: Per-polygon sampling uses, for each polygon, a generator built
from that polygon alone — its bounds are the polygon's own bounding box
and its containment test consults only that polygon; minimum distance is
enforced only within each polygon's own accepted points; results are
concatenated in polygon index order (`samplePolygonsFrom`).  The concrete
conjunct exhibits two member polygons whose accepted points are closer
than the minimum distance to each other: no cross-polygon check exists. -/
theorem C7_per_polygon_scoping
    (isValid : Ring → Bool) (seedFn : ℤ → ℕ → ℚ) (poly : Ring) (v : Pt)
    (vs : List Pt) (hpoly : poly = v :: vs) (g' : Generator)
    (hg' : mkGenerator (mkBoundaryHandler isValid [poly] none) = .ok g') :
    (g'.handler.polygons = [poly] ∧ g'.bounds = bboxOf v vs ∧
      ∀ q : Pt, contains_point g'.handler q = interiorContains poly q) ∧
    (∀ (g : Generator) (n : ℤ) (seed : Option ℤ) (mdk : Option ℚ) (st : RState),
      (generate_points_per_polygon isValid seedFn g n seed mdk st).1 =
        (samplePolygonsFrom isValid seedFn n (mdk.getD (1 / 1000))
          (fun i => seed.map fun s => s + (i : ℤ)) g.handler.polygons 0 st).1) ∧
    ((generate_points_per_polygon allValid constSeedFn twoSqGen 1 (some 0)
        (some 7) constState).1 = ([(5, 5), (5, 5)] : List Pt) ∧
      dist2 ((5 : ℚ), (5 : ℚ)) (5, 5) < 7 ^ 2) := by
  refine ⟨?_, ?_, ?_, ?_⟩
  · obtain ⟨hh, _, _⟩ := mkGenerator_single isValid poly g' hg'
    subst hpoly
    refine ⟨by rw [hh], mkGenerator_single_bounds isValid v vs g' hg', ?_⟩
    intro q
    rw [hh, contains_point_single]
  · intro g n seed mdk st
    cases hpoly2 : g.handler.polygons with
    | nil => simp [generate_points_per_polygon, hpoly2, samplePolygonsFrom]
    | cons p ps =>
      simp only [generate_points_per_polygon, hpoly2, List.isEmpty_cons]
      rw [if_neg (by simp)]
      rw [perPolyLoop_eq]
      simp
  · with_unfolding_all rfl
  · norm_num [dist2]

/-- Witness for C7: the square polygon, its head vertex and tail, and the
generator the source builds for it. -/
theorem C7_witness :
    sqRing = ((0 : ℚ), (0 : ℚ)) :: [((10 : ℚ), (0 : ℚ)), (10, 10), (0, 10)] ∧
    mkGenerator (mkBoundaryHandler allValid [sqRing] none) = .ok sqGen ∧
    sqGen.handler.polygons = [sqRing] ∧
    sqGen.bounds = bboxOf (0, 0) [(10, 0), (10, 10), (0, 10)] := by
  have hmk : mkGenerator (mkBoundaryHandler allValid [sqRing] none) = .ok sqGen := by
    with_unfolding_all rfl
  have h := C7_per_polygon_scoping allValid constSeedFn sqRing (0, 0)
    [(10, 0), (10, 10), (0, 10)] rfl sqGen hmk
  exact ⟨rfl, hmk, h.1.1, h.1.2.1⟩

/-- C8: The containment test is strict interior containment: a point on
the boundary (an edge or vertex) of a member polygon is never reported as
contained — `interiorContains` rejects it, `contains_point` is false when
no member polygon has it in its interior — and consequently a successful
sampler run over a polygon never returns a point on that polygon's
boundary. -/
theorem C8_boundary_excluded (ring : Ring) (p : Pt)
    (hb : onBoundary ring p = true) :
    interiorContains ring p = false ∧
    (∀ h : BoundaryHandler,
      (∀ r ∈ h.polygons, interiorContains r p = false) →
        contains_point h p = false) ∧
    (∀ (isValid : Ring → Bool) (seedFn : ℤ → ℕ → ℚ) (g : Generator)
      (n : ℤ) (d : ℚ) (seed : Option ℤ) (st : RState) (pts : List Pt),
      mkGenerator (mkBoundaryHandler isValid [ring] none) = .ok g →
      0 < d →
      (generate_points_with_minimum_distance seedFn g n d seed st).1 = .ok pts →
      p ∉ pts) := by
  have h1 : interiorContains ring p = false := by
    simp [interiorContains, hb]
  refine ⟨h1, ?_, ?_⟩
  · intro h hall
    rw [contains_point, List.any_eq_false]
    intro r hr
    simp [hall r hr]
  · intro isValid seedFn g n d seed st pts hg hd hrun hmem
    obtain ⟨_, a2, _⟩ :=
      generate_min_distance_correct isValid seedFn ring g hg n d hd seed st pts hrun
    have := a2 p hmem
    rw [h1] at this
    exact Bool.false_ne_true this

/-- Witness for C8: the midpoint of the square's left edge is on the
boundary and is rejected by the containment test. -/
theorem C8_witness :
    onBoundary sqRing ((0 : ℚ), (5 : ℚ)) = true ∧
    interiorContains sqRing ((0 : ℚ), (5 : ℚ)) = false := by
  have hb : onBoundary sqRing ((0 : ℚ), (5 : ℚ)) = true := by
    with_unfolding_all rfl
  exact ⟨hb, (C8_boundary_excluded sqRing ((0 : ℚ), (5 : ℚ)) hb).1⟩

/-- C9: Omitting the `min_distance` keyword does not fail: both the
per-polygon generator and `generate_sampling_points` behave exactly as if
`min_distance = 0.001` (i.e. `1/1000` in exact arithmetic) had been
passed, for every polygon. -/
theorem C9_default_min_distance (isValid : Ring → Bool) (seedFn : ℤ → ℕ → ℚ)
    (g : Generator) (n : ℤ) (seed : Option ℤ) (st : RState)
    (h : BoundaryHandler) (n2 : ℤ) (sdk : Option ℤ) (st2 : RState) :
    generate_points_per_polygon isValid seedFn g n seed none st =
      generate_points_per_polygon isValid seedFn g n seed (some (1 / 1000)) st ∧
    generate_sampling_points isValid seedFn h n2 none sdk st2 =
      generate_sampling_points isValid seedFn h n2 (some (1 / 1000)) sdk st2 := by
  constructor
  · rfl
  · cases hmk : mkGenerator h with
    | error e => simp only [generate_sampling_points, hmk]
    | ok gen =>
      simp only [generate_sampling_points, hmk]
      with_unfolding_all rfl

/-- C4 counterexample: on a boundary set with zero polygons,
`generate_sampling_points` does not return an empty result — the generator
constructor finds no bounds and raises `ValueError`, which the claim (as
stated) excludes. -/
theorem C4_counterexample :
    generate_sampling_points allValid constSeedFn ⟨[], []⟩ 5 none none constState =
      .error "No valid boundary available for point generation" := rfl

/-- C4 (amended): with zero polygons, `generate_sampling_points` raises
`ValueError` from `RandomPointGenerator.__init__` (bounds are `None`);
only the method `generate_points_per_polygon` itself, on an
already-constructed generator whose handler has zero polygons, returns an
empty result without error. -/
theorem C4_empty_boundary (isValid : Ring → Bool) (seedFn : ℤ → ℕ → ℚ)
    (h : BoundaryHandler) (hemp : h.polygons = []) (n : ℤ) (mdk : Option ℚ)
    (sdk : Option ℤ) (st : RState) :
    generate_sampling_points isValid seedFn h n mdk sdk st =
      .error "No valid boundary available for point generation" ∧
    ∀ (g : Generator), g.handler.polygons = [] →
      ∀ seed, generate_points_per_polygon isValid seedFn g n seed mdk st = ([], st) := by
  constructor
  · have hb : get_bounds h = none := by simp [get_bounds, hemp]
    simp [generate_sampling_points, mkGenerator, hb]
  · intro g hg seed
    simp [generate_points_per_polygon, hg]

/-- Witness for C4's amended claim at the concrete empty handler. -/
theorem C4_witness :
    (⟨[], []⟩ : BoundaryHandler).polygons = [] ∧
    generate_sampling_points allValid constSeedFn ⟨[], []⟩ 5 none none constState =
      .error "No valid boundary available for point generation" :=
  ⟨rfl, (C4_empty_boundary allValid constSeedFn ⟨[], []⟩ rfl 5 none none constState).1⟩

/-- C5: For `n > 0` and `minDistance ≤ 0` the source dispatches to
`self.generate_points(n_points, seed)`, a method that exists nowhere in
the repository, so the call raises `AttributeError` instead of degrading
to unconstrained rejection sampling as the spec intends. -/
theorem C5_attribute_error (seedFn : ℤ → ℕ → ℚ) (g : Generator) (n : ℤ)
    (hn : 0 < n) (d : ℚ) (hd : d ≤ 0) (seed : Option ℤ) (st : RState) :
    (generate_points_with_minimum_distance seedFn g n d seed st).1 =
      .error "AttributeError: RandomPointGenerator object has no attribute generate_points" := by
  have hn' : ¬ (n ≤ 0) := not_le.mpr hn
  simp [generate_points_with_minimum_distance, if_neg hn', if_pos hd]

/-- Witness for C5 at the failing input: square polygon, `n_points = 1`,
`min_distance = 0`. -/
theorem C5_witness :
    (0 : ℤ) < 1 ∧ (0 : ℚ) ≤ 0 ∧
    (generate_points_with_minimum_distance constSeedFn sqGen 1 0 (some 0) constState).1 =
      .error "AttributeError: RandomPointGenerator object has no attribute generate_points" :=
  ⟨by norm_num, le_refl 0,
    C5_attribute_error constSeedFn sqGen 1 (by norm_num) 0 (le_refl 0) (some 0) constState⟩

/-- Python's `"" in s` is always true. -/
theorem strIn_empty (s : String) : strIn "" s = true := by
  rw [strIn]
  apply List.any_eq_true.mpr
  exact ⟨0, List.mem_range.mpr (Nat.succ_pos _), rfl⟩

theorem toLower_empty : ("" : String).toLower = "" := by with_unfolding_all rfl

/-- On an all-valid polygon list with enough attribute entries, the
validation loop pairs each polygon with its attribute dict in order. -/
theorem validateFrom_all_valid (isValid : Ring → Bool) (attrs0 : List Attrs) :
    ∀ (ps : List Ring) (i : ℕ), (∀ r ∈ ps, isValid r = true) →
      i + ps.length ≤ attrs0.length →
      validateFrom isValid attrs0 ps i = ps.zip (attrs0.drop i) := by
  intro ps
  induction ps with
  | nil => intro i _ _; simp [validateFrom]
  | cons p ps ih =>
    intro i hval hlen
    have hi : i < attrs0.length := by simp at hlen; omega
    rw [validateFrom, if_pos (hval p (by simp))]
    rw [ih (i + 1) (fun r hr => hval r (by simp [hr])) (by simp at hlen ⊢; omega)]
    rw [List.drop_eq_getElem_cons hi, List.zip_cons_cons,
      List.getD_eq_getElem attrs0 [] hi]

/-- Rebuilding a handler from an all-valid polygon list and a matching
nonempty-or-trivial attribute list reproduces it exactly. -/
theorem mkBoundaryHandler_id (isValid : Ring → Bool) (ps : List Ring)
    (as : List Attrs) (hval : ∀ r ∈ ps, isValid r = true)
    (hlen : as.length = ps.length) :
    mkBoundaryHandler isValid ps (some as) = ⟨ps, as⟩ := by
  rcases as with _ | ⟨a, as'⟩
  · have hps : ps = [] := by
      cases ps with
      | nil => rfl
      | cons q qs => simp at hlen
    subst hps
    rfl
  · have ha0 : (if (a :: as').isEmpty = true then
        List.replicate ps.length ([] : Attrs) else a :: as') = a :: as' := rfl
    simp only [mkBoundaryHandler]
    rw [ha0]
    rw [validateFrom_all_valid isValid (a :: as') ps 0 hval (by simp [← hlen]),
      List.drop_zero]
    rw [List.map_fst_zip ps (a :: as') (by omega), List.map_snd_zip ps (a :: as') (by omega)]

/-- C10: filtering on the empty search value is the identity on a handler
whose invariant holds (all stored polygons valid, attribute list parallel
to the polygon list): every pair matches (the empty string is a
case-insensitive substring of every value, including the default for a
missing key), and the constructor rebuilds the same handler. -/
theorem C10_filter_empty_identity (isValid : Ring → Bool) (h : BoundaryHandler)
    (hval : ∀ r ∈ h.polygons, isValid r = true)
    (hlen : h.polygon_attributes.length = h.polygons.length) (field : String) :
    filter_by_attribute isValid h field "" = h := by
  obtain ⟨ps, as⟩ := h
  simp only at hval hlen
  rcases as with _ | ⟨a, as'⟩
  · rfl
  · simp only [filter_by_attribute]
    rw [if_neg (by simp : ¬((a :: as').isEmpty = true))]
    rw [List.filter_eq_self.mpr ?hpred]
    case hpred =>
      intro pa _
      rw [toLower_empty, strIn_empty]
    rw [List.map_fst_zip ps (a :: as') (by simp at hlen ⊢; omega),
      List.map_snd_zip ps (a :: as') (by simp at hlen ⊢; omega)]
    exact mkBoundaryHandler_id isValid ps (a :: as') hval hlen

/-- Witness for C10 at a one-polygon handler with a `name` attribute. -/
theorem C10_witness :
    (∀ r ∈ namedHandler.polygons, allValid r = true) ∧
    namedHandler.polygon_attributes.length = namedHandler.polygons.length ∧
    filter_by_attribute allValid namedHandler "name" "" = namedHandler :=
  ⟨fun _ _ => rfl, rfl,
    C10_filter_empty_identity allValid namedHandler (fun _ _ => rfl) rfl "name"⟩

end RandomSampling
